import Mathlib

/-!
Verification of the cross-account access guard (guard_cross_access.py).

Strings are modelled as lists of characters. Python string lowering is
modelled with the ASCII case map of Char.toLower, and Python str.strip
with the six ASCII whitespace characters; the guard only ever compares
characters it produced itself, so this agrees with the source on all
inputs considered here.
-/

/-- ASCII whitespace, as stripped by the source around each configured entry. -/
def isPySpace (c : Char) : Bool :=
  c == ' ' || c == '\t' || c == '\n' || c == '\r' || c == Char.ofNat 11 || c == Char.ofNat 12

/-- Strip leading and trailing whitespace, modelling str.strip(). -/
def pyStrip (s : List Char) : List Char :=
  ((s.dropWhile isPySpace).reverse.dropWhile isPySpace).reverse

/-- Lowercase every character, modelling str.lower() on ASCII data. -/
def pyLower (s : List Char) : List Char := s.map Char.toLower

/-- Replace every occurrence of one character by another, modelling str.replace
on single-character arguments. -/
def replaceChar (a b : Char) (s : List Char) : List Char :=
  s.map (fun c => if c == a then b else c)

/-- Drop every trailing forward slash, modelling str.rstrip("/"). -/
def rstripSlashes (s : List Char) : List Char :=
  ((s.reverse).dropWhile (fun c => c == '/')).reverse

/-- Split on commas, modelling str.split(",") with empty segments kept. -/
def splitOnComma : List Char → List (List Char)
  | [] => [[]]
  | c :: rest =>
    if c == ',' then [] :: splitOnComma rest
    else
      match splitOnComma rest with
      | [] => [[c]]
      | seg :: segs => (c :: seg) :: segs

/-- Does the first list start with the second, contiguously from position 0? -/
def startsWithL : List Char → List Char → Bool
  | _, [] => true
  | [], _ :: _ => false
  | h :: hs, p :: ps => (h == p) && startsWithL hs ps

/-- Contiguous substring containment, modelling the Python `in` operator
on strings: isSubstr pat hay is true when pat occurs in hay. -/
def isSubstr (pat : List Char) : List Char → Bool
  | [] => pat.isEmpty
  | h :: t => startsWithL (h :: t) pat || isSubstr pat t

/-- Source `_normalize`: path.replace(backslash, slash).lower().rstrip(slash). -/
def _normalize (path : List Char) : List Char :=
  rstripSlashes (pyLower (replaceChar '\\' '/' path))

/-- True when the list has no newline character. The source regex uses `.`
which does not match a newline. -/
def noNewline (s : List Char) : Bool := s.all (fun c => c != '\n')

/-- Source `_msys2_form`: re.match of a lowercase letter, a colon and a slash
followed by the rest, giving the MSYS2 mount spelling. The regex anchor `$`
also matches just before one trailing newline, which `.` then omits from the
captured group; both cases are reproduced here. -/
def _msys2_form (winPath : List Char) : Option (List Char) :=
  match winPath with
  | c :: ':' :: '/' :: rest =>
    if 'a' ≤ c && c ≤ 'z' then
      if noNewline rest then some ('/' :: c :: '/' :: rest)
      else if (rest.getLast? == some '\n') && noNewline rest.dropLast then
        some ('/' :: c :: '/' :: rest.dropLast)
      else none
    else none
  | _ => none

/-- The third test of the matching loop: the MSYS2 form is present, truthy
(non-empty) and occurs in the lowered text, modelling `msys and msys in lowered`. -/
def msysHit (msys : Option (List Char)) (lowered : List Char) : Bool :=
  match msys with
  | some m => !m.isEmpty && isSubstr m lowered
  | none => false

/-- The loop body of `_contains_any_forbidden`: first entry whose normalized
form occurs in the slash-normalized text, or whose backslash rewriting or
MSYS2 form occurs in the lowered text, wins. -/
def containsLoop (fwd lowered : List Char) :
    List (List Char × Option (List Char)) → Option (List Char)
  | [] => none
  | (norm, msys) :: rest =>
    if isSubstr norm fwd then some norm
    else if isSubstr (replaceChar '/' '\\' norm) lowered then some norm
    else if msysHit msys lowered then some norm
    else containsLoop fwd lowered rest

/-- The lowered copy of the target text computed by `_contains_any_forbidden`. -/
def lowOf (text : List Char) : List Char := pyLower text

/-- The slash-normalized lowered copy of the target text. -/
def fwdOf (text : List Char) : List Char := replaceChar '\\' '/' (pyLower text)

/-- Source `_contains_any_forbidden`. -/
def _contains_any_forbidden (text : List Char)
    (forbidden_list : List (List Char × Option (List Char))) : Option (List Char) :=
  containsLoop (fwdOf text) (lowOf text) forbidden_list

/-- One of the three match tests succeeds for this entry against this text. -/
def matchesDirB (fwd lowered : List Char) (p : List Char × Option (List Char)) : Bool :=
  isSubstr p.1 fwd || isSubstr (replaceChar '/' '\\' p.1) lowered || msysHit p.2 lowered

/-- The process environment as seen by the guard: none models an unset
variable, some a set one (possibly set to the empty string). -/
structure Env where
  forbiddenDirs : Option (List Char)
  forbiddenDir : Option (List Char)
  account : Option (List Char)
  configDir : Option (List Char)

/-- Source `_get_forbidden_dirs`: the plural comma-separated variable is
preferred when its raw value is non-empty; each entry is stripped and empty
entries dropped; otherwise a non-empty singular value gives a one-entry list. -/
def _get_forbidden_dirs (env : Env) : List (List Char) :=
  let dirs_str := env.forbiddenDirs.getD []
  if dirs_str ≠ [] then
    ((splitOnComma dirs_str).map pyStrip).filter (fun d => d ≠ [])
  else
    let single := env.forbiddenDir.getD []
    if single ≠ [] then [pyStrip single] else []

/-- Values produced by json.load, as far as the guard can observe them. -/
inductive PyJson where
  | null
  | bool (b : Bool)
  | num (n : Int)
  | str (s : List Char)
  | arr (xs : List PyJson)
  | obj (kvs : List (List Char × PyJson))

/-- Python truthiness of a decoded value. -/
def pyTruthy : PyJson → Bool
  | PyJson.null => false
  | PyJson.bool b => b
  | PyJson.num n => n != 0
  | PyJson.str s => !s.isEmpty
  | PyJson.arr xs => !xs.isEmpty
  | PyJson.obj kvs => !kvs.isEmpty

/-- Lookup of the last binding of a key in an association list: objects
decoded by json keep the last duplicate key, and dict lookup returns it. -/
def lookLast (key : List Char) : List (List Char × PyJson) → Option PyJson
  | [] => none
  | (k, v) :: rest =>
    match lookLast key rest with
    | some r => some r
    | none => if k == key then some v else none

/-- dict.get with a default. On a non-dict value the attribute lookup raises,
modelled as an error. -/
def pyGet (j : PyJson) (key : List Char) (default : PyJson) : Except Unit PyJson :=
  match j with
  | PyJson.obj kvs => Except.ok ((lookLast key kvs).getD default)
  | _ => Except.error ()

/-- Equality of a decoded value with a string literal, as in `tool_name == "Bash"`. -/
def isStrEq (j : PyJson) (s : List Char) : Bool :=
  match j with
  | PyJson.str t => t == s
  | _ => false

def sBash : List Char := "Bash".toList
def sRead : List Char := "Read".toList
def sWrite : List Char := "Write".toList
def sEdit : List Char := "Edit".toList
def sGlob : List Char := "Glob".toList
def sGrep : List Char := "Grep".toList
def sCommand : List Char := "command".toList
def sFilePath : List Char := "file_path".toList
def sPath : List Char := "path".toList
def sToolName : List Char := "tool_name".toList
def sToolInput : List Char := "tool_input".toList

/-- Fetch one field of tool_input and keep it only when truthy, as the source
branches do; a truthy non-string value later raises inside the matcher at
text.lower(), modelled as an error. -/
def getStrField (tool_input : PyJson) (field : List Char) :
    Except Unit (Option (List Char)) :=
  match pyGet tool_input field (PyJson.str []) with
  | Except.error e => Except.error e
  | Except.ok v =>
    if pyTruthy v then
      match v with
      | PyJson.str s => Except.ok (some s)
      | _ => Except.error ()
    else Except.ok none

/-- The if/elif dispatch of main over the recognized tool names, yielding the
target text to scan, none when the tool is unrecognized or the field falsy. -/
def getTargetText (tool_name tool_input : PyJson) : Except Unit (Option (List Char)) :=
  if isStrEq tool_name sBash then getStrField tool_input sCommand
  else if isStrEq tool_name sRead || isStrEq tool_name sWrite || isStrEq tool_name sEdit then
    getStrField tool_input sFilePath
  else if isStrEq tool_name sGlob || isStrEq tool_name sGrep then
    getStrField tool_input sPath
  else Except.ok none

/-- The deny payload written by main on a match. -/
structure DenyInfo where
  account : List Char
  configDir : List Char
  displayDir : List Char
  reason : List Char
deriving DecidableEq

def squote : Char := Char.ofNat 39

/-- The reason string assembled by main. -/
def mkReason (account configDir displayDir : List Char) : List Char :=
  "Cross-account access denied. You are running as the ".toList ++ [squote]
  ++ account ++ [squote] ++ " account (config: ".toList ++ configDir
  ++ "). Access to ".toList ++ displayDir
  ++ " is forbidden. That path belongs to a different account.".toList

/-- The deny record of main: the display form rewrites slashes back to
backslashes when the first configured raw directory contains a backslash. -/
def mkDeny (env : Env) (raw_dirs : List (List Char)) (matched : List Char) : DenyInfo :=
  let account := env.account.getD ("unknown".toList)
  let configDir := env.configDir.getD ("~/.claude".toList)
  let displayDir :=
    if isSubstr ['\\'] (raw_dirs.headD []) then replaceChar '/' '\\' matched else matched
  ⟨account, configDir, displayDir, mkReason account configDir displayDir⟩

/-- Process outcome: a clean exit with at most one deny payload on the output
stream, or an uncaught Python exception (error termination). -/
inductive Outcome where
  | exitOk (output : Option DenyInfo)
  | pyError
deriving DecidableEq

/-- The normalized and MSYS2 forms precomputed by the loop at the top of main
for a directory list. -/
def mkForbidden (raw_dirs : List (List Char)) : List (List Char × Option (List Char)) :=
  raw_dirs.map (fun d => (_normalize d, _msys2_form (_normalize d)))

/-- Source `main` as a function of the environment and the decoded input
stream; none models a stream whose content json.load rejects. -/
def mainRun (env : Env) (stdin : Option PyJson) : Outcome :=
  let raw_dirs := _get_forbidden_dirs env
  if raw_dirs = [] then Outcome.exitOk none
  else
    let forbidden_list := mkForbidden raw_dirs
    match stdin with
    | none => Outcome.exitOk none
    | some input_data =>
      match pyGet input_data sToolName (PyJson.str []) with
      | Except.error _ => Outcome.pyError
      | Except.ok tool_name =>
        match pyGet input_data sToolInput (PyJson.obj []) with
        | Except.error _ => Outcome.pyError
        | Except.ok tool_input =>
          match getTargetText tool_name tool_input with
          | Except.error _ => Outcome.pyError
          | Except.ok none => Outcome.exitOk none
          | Except.ok (some text) =>
            match _contains_any_forbidden text forbidden_list with
            | none => Outcome.exitOk none
            | some m =>
              if m = [] then Outcome.exitOk none
              else Outcome.exitOk (some (mkDeny env raw_dirs m))

/-- A well-formed hook payload carrying one tool name and one string field. -/
def mkInput (tn f text : List Char) : PyJson :=
  PyJson.obj [(sToolName, PyJson.str tn), (sToolInput, PyJson.obj [(f, PyJson.str text)])]

/-- The field each recognized tool name is scanned on, none when unrecognized. -/
def fieldFor (tn : List Char) : Option (List Char) :=
  if tn == sBash then some sCommand
  else if tn == sRead || tn == sWrite || tn == sEdit then some sFilePath
  else if tn == sGlob || tn == sGrep then some sPath
  else none

/-! Helper lemmas about the embedded functions. -/

theorem isSubstr_nil (hay : List Char) : isSubstr [] hay = true := by
  cases hay <;> simp [isSubstr, startsWithL]

theorem lookLast_pair_hit (k : List Char) (v : PyJson) :
    lookLast k [(k, v)] = some v := by
  simp [lookLast]

theorem pyGet_mkInput_name (tn f text : List Char) :
    pyGet (mkInput tn f text) sToolName (PyJson.str []) = Except.ok (PyJson.str tn) := by
  have h1 : (sToolInput == sToolName) = false := by decide
  have h2 : (sToolName == sToolName) = true := by decide
  simp [pyGet, mkInput, lookLast, h1, h2]

theorem pyGet_mkInput_input (tn f text : List Char) :
    pyGet (mkInput tn f text) sToolInput (PyJson.obj []) =
      Except.ok (PyJson.obj [(f, PyJson.str text)]) := by
  have h1 : (sToolInput == sToolInput) = true := by decide
  simp [pyGet, mkInput, lookLast, h1]

theorem getTargetText_str (tn : List Char) (tin : PyJson) :
    getTargetText (PyJson.str tn) tin =
      match fieldFor tn with
      | some f => getStrField tin f
      | none => Except.ok none := by
  simp only [getTargetText, fieldFor, isStrEq]
  split_ifs <;> rfl

theorem getStrField_mk (f text : List Char) :
    getStrField (PyJson.obj [(f, PyJson.str text)]) f =
      if text = [] then Except.ok none else Except.ok (some text) := by
  have h : (f == f) = true := by simp
  cases text <;> simp [getStrField, pyGet, lookLast, h, pyTruthy]

theorem mainRun_recognized (env : Env) (tn f text : List Char)
    (hf : fieldFor tn = some f) (ht : text ≠ [])
    (hd : _get_forbidden_dirs env ≠ []) :
    mainRun env (some (mkInput tn f text)) =
      match _contains_any_forbidden text (mkForbidden (_get_forbidden_dirs env)) with
      | none => Outcome.exitOk none
      | some m =>
        if m = [] then Outcome.exitOk none
        else Outcome.exitOk (some (mkDeny env (_get_forbidden_dirs env) m)) := by
  simp only [mainRun]
  rw [if_neg hd]
  simp only [pyGet_mkInput_name, pyGet_mkInput_input, getTargetText_str, hf,
    getStrField_mk, if_neg ht]

theorem mainRun_empty_text (env : Env) (tn f : List Char) (hf : fieldFor tn = some f) :
    mainRun env (some (mkInput tn f [])) = Outcome.exitOk none := by
  by_cases hd : _get_forbidden_dirs env = []
  · simp [mainRun, hd]
  · simp only [mainRun]
    rw [if_neg hd]
    simp only [pyGet_mkInput_name, pyGet_mkInput_input, getTargetText_str, hf,
      getStrField_mk]
    simp

theorem containsLoop_all_false (fwd lowered : List Char) :
    ∀ fl, (∀ p ∈ fl, matchesDirB fwd lowered p = false) →
      containsLoop fwd lowered fl = none
  | [], _ => rfl
  | (norm, msys) :: rest, h => by
    have h0 := h (norm, msys) (List.mem_cons_self _ _)
    simp only [matchesDirB, Bool.or_eq_false_iff] at h0
    simp only [containsLoop]
    rw [if_neg (by simp [h0.1.1]), if_neg (by simp [h0.1.2]), if_neg (by simp [h0.2])]
    exact containsLoop_all_false fwd lowered rest
      (fun p hp => h p (List.mem_cons_of_mem _ hp))

theorem containsLoop_append_first (fwd lowered : List Char)
    (pre : List (List Char × Option (List Char))) (p : List Char × Option (List Char))
    (post : List (List Char × Option (List Char)))
    (hpre : ∀ q ∈ pre, matchesDirB fwd lowered q = false)
    (hp : matchesDirB fwd lowered p = true) :
    containsLoop fwd lowered (pre ++ p :: post) = some p.1 := by
  induction pre with
  | nil =>
    obtain ⟨norm, msys⟩ := p
    simp only [matchesDirB] at hp
    simp only [List.nil_append, containsLoop]
    by_cases h1 : isSubstr norm fwd = true
    · rw [if_pos h1]
    · rw [if_neg h1]
      by_cases h2 : isSubstr (replaceChar '/' '\\' norm) lowered = true
      · rw [if_pos h2]
      · rw [if_neg h2]
        have h3 : msysHit msys lowered = true := by
          rcases (by simpa using hp : (isSubstr norm fwd = true ∨
              isSubstr (replaceChar '/' '\\' norm) lowered = true) ∨
              msysHit msys lowered = true) with (h | h) | h
          · exact absurd h h1
          · exact absurd h h2
          · exact h
        rw [if_pos h3]
  | cons q qs ih =>
    obtain ⟨qn, qm⟩ := q
    have hq := hpre (qn, qm) (List.mem_cons_self _ _)
    simp only [matchesDirB, Bool.or_eq_false_iff] at hq
    simp only [List.cons_append, containsLoop]
    rw [if_neg (by simp [hq.1.1]), if_neg (by simp [hq.1.2]), if_neg (by simp [hq.2])]
    exact ih (fun r hr => hpre r (List.mem_cons_of_mem _ hr))

theorem contains_append_first (text : List Char)
    (pre : List (List Char × Option (List Char))) (p : List Char × Option (List Char))
    (post : List (List Char × Option (List Char)))
    (hpre : ∀ q ∈ pre, matchesDirB (fwdOf text) (lowOf text) q = false)
    (hp : matchesDirB (fwdOf text) (lowOf text) p = true) :
    _contains_any_forbidden text (pre ++ p :: post) = some p.1 :=
  containsLoop_append_first (fwdOf text) (lowOf text) pre p post hpre hp

theorem contains_nil_head (text : List Char) (msys : Option (List Char))
    (rest : List (List Char × Option (List Char))) :
    _contains_any_forbidden text (([], msys) :: rest) = some [] := by
  simp [_contains_any_forbidden, containsLoop, isSubstr_nil]

theorem dropWhile_of_all (p : Char → Bool) :
    ∀ l : List Char, (∀ c ∈ l, p c = true) → l.dropWhile p = []
  | [], _ => rfl
  | c :: cs, h => by
    have hc := h c (List.mem_cons_self _ _)
    simp only [List.dropWhile, hc]
    exact dropWhile_of_all p cs (fun x hx => h x (List.mem_cons_of_mem _ hx))

theorem normalize_slash_only (d : List Char)
    (h : ∀ c ∈ d, c = '/' ∨ c = '\\') : _normalize d = [] := by
  have hall : ∀ c ∈ pyLower (replaceChar '\\' '/' d), c = '/' := by
    intro c hc
    simp only [pyLower, replaceChar, List.map_map, List.mem_map, Function.comp] at hc
    obtain ⟨c0, hc0, hrw⟩ := hc
    rcases h c0 hc0 with h' | h' <;> subst h' <;> subst hrw <;> rfl
  have hrev : ∀ c ∈ (pyLower (replaceChar '\\' '/' d)).reverse, (c == '/') = true := by
    intro c hc
    have := hall c (List.mem_reverse.mp hc)
    simp [this]
  simp only [_normalize, rstripSlashes]
  rw [dropWhile_of_all _ _ hrev, List.reverse_nil]

theorem get_dirs_empty (env : Env)
    (h1 : env.forbiddenDirs = none ∨ env.forbiddenDirs = some [])
    (h2 : env.forbiddenDir = none ∨ env.forbiddenDir = some []) :
    _get_forbidden_dirs env = [] := by
  rcases h1 with h1 | h1 <;> rcases h2 with h2 | h2 <;>
    simp [_get_forbidden_dirs, h1, h2]

theorem contains_all_false (text : List Char)
    (fl : List (List Char × Option (List Char)))
    (h : ∀ p ∈ fl, matchesDirB (fwdOf text) (lowOf text) p = false) :
    _contains_any_forbidden text fl = none :=
  containsLoop_all_false (fwdOf text) (lowOf text) fl h

/-! The claims. -/

/-- C1 counterexample: with the single forbidden directory "/", whose
normalized form (the empty string) occurs in every slash-normalized target
text, a recognized Bash request with non-empty command is nevertheless
Allowed, so the claim fails as stated. -/
theorem C1_counterexample :
    isSubstr (_normalize ("/".toList)) (fwdOf ("cat /c/w".toList)) = true ∧
    mainRun ⟨some ("/".toList), none, none, none⟩
      (some (mkInput sBash sCommand ("cat /c/w".toList))) = Outcome.exitOk none :=
  ⟨by decide, by decide⟩

/-- C1 (amended): for every non-empty configuration and recognized tool request
with non-empty target text, if some configured forbidden directory matches the
target text via one of its three forms, and the first such directory in
configuration order has a non-empty normalized form, then the decision is Deny. -/
theorem C1_matching_soundness (env : Env) (tn f text : List Char)
    (pre : List (List Char × Option (List Char))) (p : List Char × Option (List Char))
    (post : List (List Char × Option (List Char)))
    (hf : fieldFor tn = some f) (ht : text ≠ [])
    (hfl : mkForbidden (_get_forbidden_dirs env) = pre ++ p :: post)
    (hpre : ∀ q ∈ pre, matchesDirB (fwdOf text) (lowOf text) q = false)
    (hp : matchesDirB (fwdOf text) (lowOf text) p = true)
    (hne : p.1 ≠ []) :
    mainRun env (some (mkInput tn f text)) =
      Outcome.exitOk (some (mkDeny env (_get_forbidden_dirs env) p.1)) := by
  have hd : _get_forbidden_dirs env ≠ [] := by
    intro h
    rw [h] at hfl
    simp [mkForbidden] at hfl
  rw [mainRun_recognized env tn f text hf ht hd, hfl,
    contains_append_first text pre p post hpre hp]
  simp [hne]

theorem C1_matching_soundness_witness :
    mainRun ⟨some ("/w".toList), none, none, none⟩
      (some (mkInput sBash sCommand ("cat /w/settings.json".toList))) =
      Outcome.exitOk (some (mkDeny ⟨some ("/w".toList), none, none, none⟩
        ["/w".toList] ("/w".toList))) :=
  C1_matching_soundness ⟨some ("/w".toList), none, none, none⟩ sBash sCommand
    ("cat /w/settings.json".toList) [] (("/w".toList), none) []
    (by decide) (by decide) (by decide) (by simp) (by decide) (by decide)

/-- C2: for every configuration and every recognized tool request whose target
text matches no configured forbidden directory in any of the three forms, the
decision is Allow and no output is produced. -/
theorem C2_no_false_positive (env : Env) (tn f text : List Char)
    (hf : fieldFor tn = some f)
    (hno : ∀ p ∈ mkForbidden (_get_forbidden_dirs env),
      matchesDirB (fwdOf text) (lowOf text) p = false) :
    mainRun env (some (mkInput tn f text)) = Outcome.exitOk none := by
  by_cases hd : _get_forbidden_dirs env = []
  · simp [mainRun, hd]
  · rcases eq_or_ne text [] with ht | ht
    · subst ht
      exact mainRun_empty_text env tn f hf
    · rw [mainRun_recognized env tn f text hf ht hd, contains_all_false text _ hno]

theorem C2_no_false_positive_witness :
    mainRun ⟨some ("/a".toList), none, none, none⟩
      (some (mkInput sBash sCommand ("ls /b".toList))) = Outcome.exitOk none :=
  C2_no_false_positive ⟨some ("/a".toList), none, none, none⟩ sBash sCommand
    ("ls /b".toList) (by decide) (by decide)

/-- C3: a non-JSON-decodable input stream indeed yields Allow with a clean
exit, but JSON that is not an object, or an object whose tool_input is not a
mapping under a recognized tool, raises an uncaught AttributeError and the
process terminates with an error, contradicting the fail-open design the
documentation states. -/
theorem C3_malformed_input :
    mainRun ⟨some ("/x".toList), none, none, none⟩ none = Outcome.exitOk none ∧
    mainRun ⟨some ("/x".toList), none, none, none⟩ (some (PyJson.arr []))
      = Outcome.pyError ∧
    mainRun ⟨some ("/x".toList), none, none, none⟩
      (some (PyJson.obj [(sToolName, PyJson.str sBash), (sToolInput, PyJson.str ("y".toList))]))
      = Outcome.pyError :=
  ⟨by decide, by decide, by decide⟩

/-- C4: when neither forbidden-directory variable is set, or both are empty,
every request is Allowed with no output and a success exit, whatever the
input stream holds. -/
theorem C4_disabled_guard (env : Env) (stdin : Option PyJson)
    (h1 : env.forbiddenDirs = none ∨ env.forbiddenDirs = some [])
    (h2 : env.forbiddenDir = none ∨ env.forbiddenDir = some []) :
    mainRun env stdin = Outcome.exitOk none := by
  simp [mainRun, get_dirs_empty env h1 h2]

theorem C4_disabled_guard_witness :
    mainRun ⟨none, none, none, none⟩
      (some (mkInput sBash sCommand ("rm -rf /home/alice/.claude-work".toList)))
      = Outcome.exitOk none :=
  C4_disabled_guard ⟨none, none, none, none⟩
    (some (mkInput sBash sCommand ("rm -rf /home/alice/.claude-work".toList)))
    (Or.inl rfl) (Or.inl rfl)

/-- C5: the match reported by the matcher is the first forbidden directory in
configuration order for which any of the three forms matches; entries after it
play no role. -/
theorem C5_first_match_order (text : List Char)
    (pre : List (List Char × Option (List Char))) (p : List Char × Option (List Char))
    (post : List (List Char × Option (List Char)))
    (hpre : ∀ q ∈ pre, matchesDirB (fwdOf text) (lowOf text) q = false)
    (hp : matchesDirB (fwdOf text) (lowOf text) p = true) :
    _contains_any_forbidden text (pre ++ p :: post) = some p.1 :=
  contains_append_first text pre p post hpre hp

theorem C5_first_match_order_witness :
    _contains_any_forbidden ("cat /a/b".toList)
      [("/b".toList, none), ("/a".toList, none)] = some ("/b".toList) :=
  C5_first_match_order ("cat /a/b".toList) [] ("/b".toList, none)
    [("/a".toList, none)] (by simp) (by decide)

/-- C6 counterexample: with the plural variable unset and the singular one set
to a value with surrounding whitespace, the configured list holds the stripped
value, not the value itself, so the claim fails as stated. -/
theorem C6_counterexample :
    _get_forbidden_dirs ⟨none, some (" /a ".toList), none, none⟩ ≠ [(" /a ".toList)] ∧
    _get_forbidden_dirs ⟨none, some (" /a ".toList), none, none⟩ = [("/a".toList)] :=
  ⟨by decide, by decide⟩

/-- C6 (amended): when the plural variable is unset or empty and the singular
one is set to a non-empty value, the configured forbidden-directory list is
exactly that single value with leading and trailing whitespace stripped. -/
theorem C6_legacy_fallback (env : Env) (s : List Char)
    (h1 : env.forbiddenDirs = none ∨ env.forbiddenDirs = some [])
    (h2 : env.forbiddenDir = some s) (h3 : s ≠ []) :
    _get_forbidden_dirs env = [pyStrip s] := by
  rcases h1 with h1 | h1 <;> simp [_get_forbidden_dirs, h1, h2, h3]

theorem C6_legacy_fallback_witness :
    _get_forbidden_dirs ⟨none, some (" /b ".toList), none, none⟩ = ["/b".toList] := by
  rw [C6_legacy_fallback ⟨none, some (" /b ".toList), none, none⟩ (" /b ".toList)
    (Or.inl rfl) rfl (by decide)]
  decide

/-- C7: every deny emitted by main carries the matched directory, rendered
with backslashes exactly when the first configured forbidden directory (in
original input order) contains a backslash, and in its normalized
forward-slash form otherwise. -/
theorem C7_deny_display_form (env : Env) (tn f text m : List Char)
    (hf : fieldFor tn = some f) (ht : text ≠ [])
    (hm : _contains_any_forbidden text (mkForbidden (_get_forbidden_dirs env)) = some m)
    (hne : m ≠ []) :
    mainRun env (some (mkInput tn f text)) =
      Outcome.exitOk (some (mkDeny env (_get_forbidden_dirs env) m)) ∧
    (mkDeny env (_get_forbidden_dirs env) m).displayDir =
      (if isSubstr ['\\'] ((_get_forbidden_dirs env).headD []) = true
        then replaceChar '/' '\\' m else m) := by
  have hd : _get_forbidden_dirs env ≠ [] := by
    intro h
    rw [h] at hm
    simp [mkForbidden, _contains_any_forbidden, containsLoop] at hm
  constructor
  · rw [mainRun_recognized env tn f text hf ht hd, hm]
    simp [hne]
  · simp [mkDeny]

theorem C7_deny_display_form_witness :
    mainRun ⟨some ("C:\\Users\\x".toList), none, none, none⟩
      (some (mkInput sWrite sFilePath ("C:\\Users\\x\\cfg".toList))) =
      Outcome.exitOk (some (mkDeny ⟨some ("C:\\Users\\x".toList), none, none, none⟩
        ["C:\\Users\\x".toList] ("c:/users/x".toList))) ∧
    (mkDeny ⟨some ("C:\\Users\\x".toList), none, none, none⟩
      ["C:\\Users\\x".toList] ("c:/users/x".toList)).displayDir =
      "c:\\users\\x".toList := by
  have h := C7_deny_display_form ⟨some ("C:\\Users\\x".toList), none, none, none⟩
    sWrite sFilePath ("C:\\Users\\x\\cfg".toList) ("c:/users/x".toList)
    (by decide) (by decide) (by decide) (by decide)
  exact ⟨h.1, by decide⟩

/-- C8: a non-empty plural value whose comma-separated entries all strip to
empty disables the guard; the singular variable is never consulted, and every
request is Allowed with a clean exit. -/
theorem C8_blank_plural_disables (env : Env) (s : List Char)
    (hs : env.forbiddenDirs = some s) (hne : s ≠ [])
    (hempty : ((splitOnComma s).map pyStrip).filter (fun d => d ≠ []) = []) :
    _get_forbidden_dirs env = [] ∧ ∀ stdin, mainRun env stdin = Outcome.exitOk none := by
  have hd : _get_forbidden_dirs env = [] := by
    simp only [_get_forbidden_dirs, hs, Option.getD_some]
    rw [if_pos hne]
    exact hempty
  exact ⟨hd, fun stdin => by simp [mainRun, hd]⟩

theorem C8_blank_plural_disables_witness :
    _get_forbidden_dirs ⟨some (",".toList), some ("/x".toList), none, none⟩ = [] ∧
    mainRun ⟨some (",".toList), some ("/x".toList), none, none⟩
      (some (mkInput sBash sCommand ("cat /x/secret".toList))) = Outcome.exitOk none := by
  have h := C8_blank_plural_disables ⟨some (",".toList), some ("/x".toList), none, none⟩
    (",".toList) rfl (by decide) (by decide)
  exact ⟨h.1, h.2 (some (mkInput sBash sCommand ("cat /x/secret".toList)))⟩

/-- C9 counterexample: with the forbidden directory "/" configured, a Bash
request with non-empty command text is Allowed, not Denied as the claim
states: the empty normalized match is falsy, so the deny branch is skipped. -/
theorem C9_counterexample :
    mainRun ⟨some ("/".toList), none, none, none⟩
      (some (mkInput sBash sCommand ("rm -rf /etc/passwd".toList))) = Outcome.exitOk none := by
  decide

/-- C9 (amended): a configured forbidden directory consisting only of slashes
and backslashes normalizes to the empty string, which the matcher reports for
any target text; but the empty match is falsy in the deny check, so under a
configuration whose directories all consist only of slashes and backslashes
every recognized tool request is Allowed, not denied. -/
theorem C9_slash_only_allows (env : Env) (tn f text : List Char)
    (hf : fieldFor tn = some f)
    (hd : _get_forbidden_dirs env ≠ [])
    (hslash : ∀ d ∈ _get_forbidden_dirs env, ∀ c ∈ d, c = '/' ∨ c = '\\') :
    (∀ d ∈ _get_forbidden_dirs env, _normalize d = []) ∧
    mainRun env (some (mkInput tn f text)) = Outcome.exitOk none := by
  have hnorm : ∀ d ∈ _get_forbidden_dirs env, _normalize d = [] :=
    fun d hdm => normalize_slash_only d (hslash d hdm)
  refine ⟨hnorm, ?_⟩
  rcases eq_or_ne text [] with ht | ht
  · subst ht
    exact mainRun_empty_text env tn f hf
  · rw [mainRun_recognized env tn f text hf ht hd]
    obtain ⟨d0, rest, hcons⟩ : ∃ d0 rest, _get_forbidden_dirs env = d0 :: rest := by
      rcases h : _get_forbidden_dirs env with _ | ⟨d0, rest⟩
      · exact absurd h hd
      · exact ⟨d0, rest, rfl⟩
    have hmem : d0 ∈ _get_forbidden_dirs env := by
      rw [hcons]
      exact List.mem_cons_self _ _
    have h0 : _normalize d0 = [] := hnorm d0 hmem
    rw [hcons]
    simp only [mkForbidden, List.map_cons, h0]
    rw [contains_nil_head]
    simp

theorem C9_slash_only_allows_witness :
    mainRun ⟨some ("\\".toList), none, none, none⟩
      (some (mkInput sGrep sPath ("/home/u/proj".toList))) = Outcome.exitOk none :=
  (C9_slash_only_allows ⟨some ("\\".toList), none, none, none⟩ sGrep sPath
    ("/home/u/proj".toList) (by decide) (by decide) (by decide)).2

theorem mainRun_env_congr (e1 e2 : Env)
    (hacct : e1.account = e2.account) (hcfg : e1.configDir = e2.configDir)
    (hdirs : _get_forbidden_dirs e1 = _get_forbidden_dirs e2) :
    ∀ stdin, mainRun e1 stdin = mainRun e2 stdin := by
  intro stdin
  have hden : ∀ raw m, mkDeny e1 raw m = mkDeny e2 raw m := by
    intro raw m
    simp [mkDeny, hacct, hcfg]
  simp only [mainRun, hdirs, hden]

/-- C10: both configuration sources are stripped of surrounding whitespace
before normalization and matching. First conjunct: two non-empty plural
values whose comma-separated entries agree after stripping give the guard
identical behavior on every input. Second conjunct: with the plural variable
unset or empty, two non-empty singular values that agree after stripping give
identical behavior on every input. In particular " /a , /b " behaves exactly
like "/a,/b", and a singular " /a " exactly like "/a". -/
theorem C10_strip_invariance :
    (∀ (acct cfg sing : Option (List Char)) (s1 s2 : List Char), s1 ≠ [] → s2 ≠ [] →
      (splitOnComma s1).map pyStrip = (splitOnComma s2).map pyStrip →
      ∀ stdin, mainRun ⟨some s1, sing, acct, cfg⟩ stdin
        = mainRun ⟨some s2, sing, acct, cfg⟩ stdin) ∧
    (∀ (acct cfg pl : Option (List Char)) (t1 t2 : List Char),
      (pl = none ∨ pl = some []) → t1 ≠ [] → t2 ≠ [] → pyStrip t1 = pyStrip t2 →
      ∀ stdin, mainRun ⟨pl, some t1, acct, cfg⟩ stdin
        = mainRun ⟨pl, some t2, acct, cfg⟩ stdin) := by
  constructor
  · intro acct cfg sing s1 s2 h1 h2 hsplit
    refine mainRun_env_congr _ _ rfl rfl ?_
    simp [_get_forbidden_dirs, h1, h2, hsplit]
  · intro acct cfg pl t1 t2 hpl h1 h2 hstrip
    refine mainRun_env_congr _ _ rfl rfl ?_
    rcases hpl with hpl | hpl <;> subst hpl <;>
      simp [_get_forbidden_dirs, h1, h2, hstrip]

theorem C10_strip_invariance_witness :
    mainRun ⟨some (" /a , /b ".toList), some ("/z".toList), none, none⟩
      (some (mkInput sBash sCommand ("cat /a/x".toList))) =
    mainRun ⟨some ("/a,/b".toList), some ("/z".toList), none, none⟩
      (some (mkInput sBash sCommand ("cat /a/x".toList))) ∧
    mainRun ⟨none, some (" /a ".toList), none, none⟩
      (some (mkInput sRead sFilePath ("/a/cfg.json".toList))) =
    mainRun ⟨none, some ("/a".toList), none, none⟩
      (some (mkInput sRead sFilePath ("/a/cfg.json".toList))) := by
  constructor
  · exact C10_strip_invariance.1 none none (some ("/z".toList)) (" /a , /b ".toList)
      ("/a,/b".toList) (by decide) (by decide) (by decide)
      (some (mkInput sBash sCommand ("cat /a/x".toList)))
  · exact C10_strip_invariance.2 none none none (" /a ".toList) ("/a".toList)
      (Or.inl rfl) (by decide) (by decide) (by decide)
      (some (mkInput sRead sFilePath ("/a/cfg.json".toList)))
